import Mathlib

/-!
Verification development for the MBot IRC bot core: a shallow embedding of
the permission resolver (internal/userlevels), the rate limiter
(internal/security), the plugin manager (internal/plugin), the channel
policy (internal/config), the command router (internal/commands) and the
message handlers (internal/handlers), together with theorems settling the
spec claims. Go maps are embedded as association lists (first-match lookup,
unique keys); timestamps are integers (seconds); logging and network I/O
are out of scope per the spec and produce no modelled effects.
-/

namespace MBot

/-- Single quote character, used to build message strings verbatim. -/
def sq : String := (Char.ofNat 39).toString

/-! ### Association lists: the embedding of Go maps -/

/-- First-match lookup in an association list (Go map read `m[k]`). -/
def lookupA {α : Type} : List (String × α) → String → Option α
  | [], _ => none
  | (k, v) :: rest, key => if k = key then some v else lookupA rest key

/-- Update/insert in an association list (Go map write `m[k] = v`). -/
def setA {α : Type} : List (String × α) → String → α → List (String × α)
  | [], key, v => [(key, v)]
  | (k, w) :: rest, key, v =>
    if k = key then (key, v) :: rest else (k, w) :: setA rest key v

/-- Key removal (Go `delete(m, k)`). -/
def removeA {α : Type} : List (String × α) → String → List (String × α)
  | [], _ => []
  | (k, w) :: rest, key =>
    if k = key then removeA rest key else (k, w) :: removeA rest key

/-- The keys of an association list are pairwise distinct (a Go map invariant). -/
def keysNodup {α : Type} (l : List (String × α)) : Prop :=
  (l.map Prod.fst).Nodup

theorem lookupA_setA_self {α : Type} (l : List (String × α)) (k : String) (v : α) :
    lookupA (setA l k v) k = some v := by
  induction l with
  | nil => simp [setA, lookupA]
  | cons hd tl ih =>
    obtain ⟨k', v'⟩ := hd
    by_cases h : k' = k
    · simp [setA, h, lookupA]
    · simp [setA, h, lookupA, ih]

theorem lookupA_setA_other {α : Type} (l : List (String × α)) (k k' : String) (v : α)
    (h : k' ≠ k) : lookupA (setA l k v) k' = lookupA l k' := by
  have h' : ¬ (k = k') := fun hh => h hh.symm
  induction l with
  | nil => simp [setA, lookupA, h']
  | cons hd tl ih =>
    obtain ⟨k₀, v₀⟩ := hd
    by_cases h₀ : k₀ = k
    · subst h₀
      simp [setA, lookupA, h']
    · simp only [setA, if_neg h₀, lookupA]
      by_cases h₁ : k₀ = k'
      · simp [h₁]
      · simp [h₁, ih]

theorem map_fst_setA_mem {α : Type} (l : List (String × α)) (k : String) (v : α)
    (h : k ∈ l.map Prod.fst) : (setA l k v).map Prod.fst = l.map Prod.fst := by
  induction l with
  | nil => simp at h
  | cons hd tl ih =>
    obtain ⟨k₀, v₀⟩ := hd
    by_cases h₀ : k₀ = k
    · simp [setA, h₀]
    · simp only [List.map_cons, List.mem_cons] at h
      rcases h with h | h
      · exact absurd h.symm h₀
      · simp [setA, h₀, ih h]

theorem map_fst_setA_not_mem {α : Type} (l : List (String × α)) (k : String) (v : α)
    (h : k ∉ l.map Prod.fst) : (setA l k v).map Prod.fst = l.map Prod.fst ++ [k] := by
  induction l with
  | nil => simp [setA]
  | cons hd tl ih =>
    obtain ⟨k₀, v₀⟩ := hd
    simp only [List.map_cons, List.mem_cons] at h
    push_neg at h
    have h₀ : ¬ (k₀ = k) := fun hh => h.1 hh.symm
    simp [setA, h₀, ih h.2]

theorem keysNodup_setA {α : Type} (l : List (String × α)) (k : String) (v : α)
    (h : keysNodup l) : keysNodup (setA l k v) := by
  unfold keysNodup at *
  by_cases hm : k ∈ l.map Prod.fst
  · rw [map_fst_setA_mem l k v hm]
    exact h
  · rw [map_fst_setA_not_mem l k v hm]
    simp [List.nodup_append, h, hm]

theorem map_fst_removeA {α : Type} (l : List (String × α)) (k : String) :
    (removeA l k).map Prod.fst = (l.map Prod.fst).filter (fun x => x ≠ k) := by
  induction l with
  | nil => simp [removeA]
  | cons hd tl ih =>
    obtain ⟨k₀, v₀⟩ := hd
    by_cases h₀ : k₀ = k
    · simp [removeA, h₀, ih, List.filter_cons]
    · simp [removeA, h₀, ih, List.filter_cons]

theorem keysNodup_removeA {α : Type} (l : List (String × α)) (k : String)
    (h : keysNodup l) : keysNodup (removeA l k) := by
  unfold keysNodup at *
  rw [map_fst_removeA]
  exact h.filter _

/-! ### String helpers mirroring Go's strings package

Strings are processed through their character lists so that every operation
evaluates by kernel reduction (core `String` position loops do not). -/

/-- Lowercasing (`strings.ToLower`, ASCII). -/
def lowerStr (s : String) : String := ⟨s.data.map Char.toLower⟩

/-- Whether `pre` is a prefix of `s` (`strings.HasPrefix`). -/
def hasPrefixStr (s pre : String) : Bool := pre.data.isPrefixOf s.data

/-- Whether `suf` is a suffix of `s` (`strings.HasSuffix`). -/
def hasSuffixStr (s suf : String) : Bool := suf.data.reverse.isPrefixOf s.data.reverse

/-- Infix search on character lists. -/
def isInfixChars (pat : List Char) : List Char → Bool
  | [] => pat.isEmpty
  | c :: rest => pat.isPrefixOf (c :: rest) || isInfixChars pat rest

/-- Go `strings.Contains`: whether `pat` occurs as a substring of `s`. -/
def strContains (s pat : String) : Bool := isInfixChars pat.data s.data

/-- Whitespace trimming on both ends (`strings.TrimSpace`). -/
def trimStr (s : String) : String :=
  ⟨((s.data.dropWhile Char.isWhitespace).reverse.dropWhile Char.isWhitespace).reverse⟩

/-- Dropping the first `n` characters (`s[n:]` after a prefix check). -/
def dropStr (s : String) (n : Nat) : String := ⟨s.data.drop n⟩

/-- Character length. -/
def strLen (s : String) : Nat := s.data.length

/-- First character, defaulting to a space. -/
def frontStr (s : String) : Char := s.data.headD ' '

/-- Word accumulator for `fields`. -/
def wordsAux : List Char → List Char → List (List Char)
  | [], acc => if acc.isEmpty then [] else [acc.reverse]
  | c :: rest, acc =>
    if c.isWhitespace then
      if acc.isEmpty then wordsAux rest [] else acc.reverse :: wordsAux rest []
    else wordsAux rest (c :: acc)

/-- Go `strings.Fields`: split around runs of whitespace, dropping empties. -/
def fields (s : String) : List String :=
  (wordsAux s.data []).map (fun cs => ⟨cs⟩)

/-- The nickname portion of a hostmask: `strings.Split(hostmask, "!")` then
`parts[0]`, i.e. the prefix before the first `!` (Split always yields at
least one part). -/
def nickPart (hostmask : String) : String :=
  ⟨hostmask.data.takeWhile (fun c => c ≠ '!')⟩

/-- Go `strings.EqualFold`, modelled as case-insensitive equality via lowercasing. -/
def eqFold (a b : String) : Bool := lowerStr a == lowerStr b

/-- Go `strings.TrimRight(w, ",:;.!?")`. -/
def trimRightPunct (w : String) : String :=
  ⟨(w.data.reverse.dropWhile (fun c => c ∈ [',', ':', ';', '.', '!', '?'])).reverse⟩

/-! ### internal/userlevels: the permission resolver -/

/-- Go `UserLevel` from internal/userlevels/userlevels.go (iota order). -/
inductive UserLevel where
  | Ignored
  | BadBoy
  | Regular
  | Admin
  | Owner
deriving DecidableEq

/-- The numeric value of a level (the Go `iota` constant). -/
def UserLevel.toNat : UserLevel → Nat
  | .Ignored => 0
  | .BadBoy => 1
  | .Regular => 2
  | .Admin => 3
  | .Owner => 4

/-- Go `LevelName`. -/
def levelName : UserLevel → String
  | .Ignored => "Ignored"
  | .BadBoy => "BadBoy"
  | .Regular => "Regular"
  | .Admin => "Admin"
  | .Owner => "Owner"

/-- Go `config.HostmaskEntry` (level persisted as a Go int). -/
structure HostmaskEntry where
  hostmask : String
  level : Int
deriving DecidableEq

/-- Go `config.Settings`: the durable settings record. -/
structure Settings where
  ownerVerified : Bool
  ownerPasshash : String
  ownerHostmask : String
  hostmaskLevels : Bool
  hostmasks : List HostmaskEntry
deriving DecidableEq

/-- The two package-level maps of internal/userlevels: `users` (nick-keyed)
and `hostmaskUsers` (hostmask-keyed). -/
structure UserLevelsState where
  users : List (String × UserLevel)
  hostmaskUsers : List (String × UserLevel)
deriving DecidableEq

/-- Go `SetUserLevel` (the legacy nick-keyed method): stores under the nick and
under the wildcard hostmask `nick + "!*@*"`. -/
def SetUserLevel (st : UserLevelsState) (nick : String) (level : UserLevel) :
    UserLevelsState :=
  { users := setA st.users nick level,
    hostmaskUsers := setA st.hostmaskUsers (nick ++ "!*@*") level }

/-- Go `SetUserLevelByHostmask`: stores under the full hostmask and under the
nickname portion. -/
def SetUserLevelByHostmask (st : UserLevelsState) (hostmask : String)
    (level : UserLevel) : UserLevelsState :=
  { hostmaskUsers := setA st.hostmaskUsers hostmask level,
    users := setA st.users (nickPart hostmask) level }

/-- Go `GetUserLevelByHostmask`: exact hostmask lookup, then the verified-owner
check against the durable settings, then the nick-keyed fallback, defaulting
to Regular. The settings store is passed in (LoadSettings modelled as
succeeding). -/
def GetUserLevelByHostmask (st : UserLevelsState) (s : Settings)
    (hostmask : String) : UserLevel :=
  match lookupA st.hostmaskUsers hostmask with
  | some level => level
  | none =>
    if s.ownerVerified = true ∧ s.ownerHostmask ≠ "" ∧ hostmask = s.ownerHostmask
    then .Owner
    else
      match lookupA st.users (nickPart hostmask) with
      | some level => level
      | none => .Regular

/-- Go `IsVerifiedOwner`: with complete verification data this is exact hostmask
equality; otherwise a case-folded nick scan of `users` for an Owner entry. -/
def IsVerifiedOwner (st : UserLevelsState) (s : Settings) (hostmask : String) :
    Bool :=
  if s.ownerVerified = false ∨ s.ownerHostmask = "" then
    st.users.any (fun e => eqFold e.1 (nickPart hostmask) && e.2 == .Owner)
  else
    hostmask = s.ownerHostmask

/-- Go `HasPermission`: Ignored always fails; Owner requires the verified-owner
identity; otherwise a numeric level comparison. -/
def HasPermission (st : UserLevelsState) (s : Settings) (hostmask : String)
    (required : UserLevel) : Bool :=
  let userLevel := GetUserLevelByHostmask st s hostmask
  if userLevel = .Ignored then false
  else if required = .Owner then IsVerifiedOwner st s hostmask
  else required.toNat ≤ userLevel.toNat

/-- Go `SaveHostmasks` (success path): rewrites the hostmask entries of the
durable settings from `hostmaskUsers` and sets the `hostmaskLevels` flag. -/
def SaveHostmasks (st : UserLevelsState) (s : Settings) : Settings :=
  { s with
    hostmasks := st.hostmaskUsers.map (fun e => ⟨e.1, (e.2.toNat : Int)⟩),
    hostmaskLevels := true }

/-! ### internal/config: channel policy -/

/-- A value in the channel settings map, which holds arbitrary TOML values;
the handlers only type-switch on bool and string. -/
inductive SettingVal where
  | b (v : Bool)
  | s (v : String)
  | other
deriving DecidableEq

/-- Go `config.ChannelConfig`. -/
structure ChannelConfig where
  enabledCommands : List String
  disabledCommands : List String
  settings : List (String × SettingVal)
deriving DecidableEq

/-- Go `config.Config`, restricted to the channel-policy map consulted by the
command router and handlers (connection fields are out of scope). -/
structure Config where
  channelSettings : List (String × ChannelConfig)
deriving DecidableEq

instance : Inhabited Config := ⟨⟨[]⟩⟩

/-- Go `GetChannelConfig`: the stored channel config, or the default empty one. -/
def GetChannelConfig (cfg : Config) (channel : String) : ChannelConfig :=
  (lookupA cfg.channelSettings channel).getD ⟨[], [], []⟩

/-- Go `IsCommandEnabledForChannel`: deny-list first, then the allow-list as
exclusive source of truth when non-empty, defaulting to enabled. -/
def IsCommandEnabledForChannel (cfg : Config) (channel commandName : String) :
    Bool :=
  let channelCfg := GetChannelConfig cfg channel
  if channelCfg.disabledCommands.contains commandName then false
  else if channelCfg.enabledCommands ≠ [] then
    channelCfg.enabledCommands.contains commandName
  else true

/-- Go `GetChannelSetting` with a default fallback. -/
def GetChannelSetting (cfg : Config) (channel key : String)
    (defaultValue : SettingVal) : SettingVal :=
  (lookupA (GetChannelConfig cfg channel).settings key).getD defaultValue

/-! ### internal/security: the sliding-window rate limiter

Timestamps are integers (seconds). Go's `t.After(cutoff)` is the strict
comparison `cutoff < t`. -/

/-- Go `security.MessageTracker` (maps embedded as association lists). -/
structure TrackerState where
  userMessages : List (String × List Int)
  userCommandUsage : List (String × List (String × List Int))
  warningCounts : List (String × Int)
  messageWindow : Int
  maxMessagesPerWindow : Int
  commandWindow : Int
  maxCommandsPerWindow : Int
  warningThreshold : Int
deriving DecidableEq

/-- Go `NewMessageTracker` defaults. -/
def NewMessageTracker : TrackerState :=
  { userMessages := [], userCommandUsage := [], warningCounts := [],
    messageWindow := 10, maxMessagesPerWindow := 5,
    commandWindow := 30, maxCommandsPerWindow := 10,
    warningThreshold := 3 }

/-- Pruning: keep the timestamps strictly after the cutoff (`t.After(cutoff)`). -/
def pruneAfter (cutoff : Int) (ts : List Int) : List Int :=
  ts.filter (fun t => cutoff < t)

/-- Go `TrackMessage`: append the current timestamp, prune entries outside the
window, compare the count to the maximum. Returns (exceeded, countInWindow)
and the updated tracker. -/
def TrackMessage (m : TrackerState) (hostmask : String) (now : Int) :
    Bool × Int × TrackerState :=
  let ts := ((lookupA m.userMessages hostmask).getD []) ++ [now]
  let newMessages := pruneAfter (now - m.messageWindow) ts
  let messageCount : Int := newMessages.length
  (decide (m.maxMessagesPerWindow < messageCount), messageCount,
   { m with userMessages := setA m.userMessages hostmask newMessages })

/-- Go `TrackCommand`: the same sliding window, keyed by (hostmask, command). -/
def TrackCommand (m : TrackerState) (hostmask commandName : String) (now : Int) :
    Bool × Int × TrackerState :=
  let userMap := (lookupA m.userCommandUsage hostmask).getD []
  let ts := ((lookupA userMap commandName).getD []) ++ [now]
  let newCommands := pruneAfter (now - m.commandWindow) ts
  let commandCount : Int := newCommands.length
  let newUsage := setA m.userCommandUsage hostmask (setA userMap commandName newCommands)
  (decide (m.maxCommandsPerWindow < commandCount), commandCount,
   { m with userCommandUsage := newUsage })

/-- Go `AddWarning`: increment the warning count; report whether the threshold
has been reached. -/
def AddWarning (m : TrackerState) (hostmask : String) : Bool × TrackerState :=
  let c := (lookupA m.warningCounts hostmask).getD 0 + 1
  (decide (m.warningThreshold ≤ c),
   { m with warningCounts := setA m.warningCounts hostmask c })

/-- Go `GetWarningCount`. -/
def GetWarningCount (m : TrackerState) (hostmask : String) : Int :=
  (lookupA m.warningCounts hostmask).getD 0

/-- Go `GetWarningThreshold`. -/
def GetWarningThreshold (m : TrackerState) : Int := m.warningThreshold

/-! ### internal/plugin: the module registry -/

/-- The value resolved from a loaded artifact: its required capabilities
(`Name`, `Version`, `OnLoad`, `OnMessage`) plus which optional interfaces it
implements. `onLoadFails` models `OnLoad()` returning an error;
`commands` is `some cmds` when the plugin implements `CommandHandler`. -/
structure PluginModel where
  name : String
  version : String
  onLoadFails : Bool
  hasUnload : Bool
  commands : Option (List String)
  hasPrivMsg : Bool
  hasNickMention : Bool
  hasKick : Bool
  hasJoin : Bool
  hasPart : Bool
  hasQuit : Bool
  hasNickChange : Bool
  hasInvite : Bool
  hasTopicChange : Bool
  hasNotice : Bool
  hasError : Bool
  hasMode : Bool
deriving DecidableEq

/-- Go `pluginInfo`. -/
structure PluginInfo where
  plugin : PluginModel
  version : String
  loadTimestamp : Int
  filePath : String
deriving DecidableEq

/-- The `manager` singleton: `plugins` and `pluginPaths` maps. -/
structure ManagerState where
  plugins : List (String × PluginInfo)
  pluginPaths : List (String × String)
deriving DecidableEq

/-- Go `knownLegacyCommands`. -/
def knownLegacyCommands : List (String × List String) :=
  [("SamplePlugin", ["test"]), ("EchoPlugin", ["echo"])]

/-- Lifecycle hook invocations observed during a load, in order. -/
inductive HookEvent where
  | onLoad (name version : String)
  | onUnload (name version : String)
deriving DecidableEq

/-- Go `LoadPlugin`, after a successful artifact open / symbol lookup / type
assertion (failures there return before any state or hook effect). Returns
the new manager state, the hook invocations in order, and whether an error
was returned. Same name and version: no-op returning nil. Same name,
different version: the old plugin's `OnUnload` runs (when implemented),
then the new plugin's `OnLoad`; on `OnLoad` error the new plugin is not
installed (and the old entry, already unhooked, remains in `plugins`). -/
def LoadPlugin (mgr : ManagerState) (plug : PluginModel) (path : String)
    (now : Int) : ManagerState × List HookEvent × Bool :=
  let pluginName := plug.name
  let pluginVersion := plug.version
  match lookupA mgr.plugins pluginName with
  | some existingInfo =>
    if existingInfo.version = pluginVersion then
      (mgr, [], false)
    else
      let unloadTrace :=
        if existingInfo.plugin.hasUnload then
          [HookEvent.onUnload pluginName existingInfo.version]
        else []
      let mgr1 : ManagerState :=
        { mgr with pluginPaths := removeA mgr.pluginPaths pluginName }
      let trace := unloadTrace ++ [HookEvent.onLoad pluginName pluginVersion]
      if plug.onLoadFails then (mgr1, trace, true)
      else
        ({ plugins := setA mgr1.plugins pluginName
             ⟨plug, pluginVersion, now, path⟩,
           pluginPaths := setA mgr1.pluginPaths pluginName path },
         trace, false)
  | none =>
    let trace := [HookEvent.onLoad pluginName pluginVersion]
    if plug.onLoadFails then (mgr, trace, true)
    else
      ({ plugins := setA mgr.plugins pluginName ⟨plug, pluginVersion, now, path⟩,
         pluginPaths := setA mgr.pluginPaths pluginName path },
       trace, false)

/-- Go `GetPluginObjects` (= `GetPluginList`). -/
def GetPluginObjects (mgr : ManagerState) : List PluginModel :=
  mgr.plugins.map (fun e => e.2.plugin)

/-! ### Messages, observable effects, and the bot state -/

/-- An inbound protocol message (irc.Message): the command, the sender prefix
split into its parts, the leading parameters, and `Trailing()` as its own
field. -/
structure Msg where
  command : String
  prefixName : String
  prefixUser : String
  prefixHost : String
  params : List String
  trailing : String
deriving DecidableEq

/-- Prefix.String(): `nick!user@host`, omitting empty user/host parts. -/
def prefixString (m : Msg) : String :=
  m.prefixName ++ (if m.prefixUser ≠ "" then "!" ++ m.prefixUser else "")
    ++ (if m.prefixHost ≠ "" then "@" ++ m.prefixHost else "")

/-- Observable effects of the handlers: protocol writes, and invocations of
externally supplied handler code (registry command handlers, plugin hooks,
the out-of-scope AI responder). Logging is out of scope and not recorded. -/
inductive Effect where
  | notice (target text : String)
  | privmsg (target text : String)
  | pong (text : String)
  | commandInvoked (name : String) (args : List String)
  | pluginCommandInvoked (pluginName cmd : String)
  | pluginOnMessage (pluginName : String)
  | pluginHandler (pluginName handlerName : String)
  | aiResponse (target nick : String)
deriving DecidableEq

/-- Worker of `HandlePluginCommand` over the plugins map entries: the first
plugin whose declared command list contains `cmd` gets its `HandleCommand`
invoked; a `knownLegacyCommands` match claims the command without invoking. -/
def handlePluginCommandList : List (String × PluginInfo) → String → List Effect × Bool
  | [], _ => ([], false)
  | (_, info) :: rest, cmd =>
    let plug := info.plugin
    let viaHandler : Bool :=
      match plug.commands with
      | some cmds => cmds.contains cmd
      | none => false
    if viaHandler then ([Effect.pluginCommandInvoked plug.name cmd], true)
    else if ((lookupA knownLegacyCommands plug.name).getD []).contains cmd then
      ([], true)
    else handlePluginCommandList rest cmd

/-- Plugin command dispatch (`HandlePluginCommand`): returns the handler
invocation effects and whether some plugin handled the command. -/
def HandlePluginCommand (mgr : ManagerState) (cmd : String) :
    List Effect × Bool :=
  handlePluginCommandList mgr.plugins cmd

/-- A statically registered command (`commands.Command`; the handler itself
is external code whose invocation is the observable effect). -/
structure RegisteredCommand where
  name : String
  description : String
  requiredLevel : UserLevel
deriving DecidableEq

/-- The shared mutable state reachable from the handlers: the permission
maps, the durable settings store, the rate limiter, the plugin manager, the
static command registry, the loaded configuration, and the
owner-verification pending map and passphrase. -/
structure BotState where
  userlevels : UserLevelsState
  settings : Settings
  tracker : TrackerState
  mgr : ManagerState
  registry : List (String × RegisteredCommand)
  botConfig : Option Config
  pending : List (String × Bool)
  verificationPassphrase : String
deriving DecidableEq

/-! ### internal/commands: the command router -/

/-- Tail of `HandleCommand` after the rate-limit block (registry lookup,
plugin-command fallback, channel policy, permission check, handler call).
`CheckPluginCommands` is wired to `plugin.HandlePluginCommand` at startup. -/
def handleCommandRest (st : BotState) (replyTarget : String)
    (isChannelMsg : Bool) (baseCommand : String) (args : List String)
    (hostmask : String) (userLevel : UserLevel) : BotState × List Effect :=
  match lookupA st.registry baseCommand with
  | none =>
    let pc := HandlePluginCommand st.mgr baseCommand
    (st, pc.1)
  | some cmd =>
    if isChannelMsg = true ∧ st.botConfig.isSome = true ∧
        IsCommandEnabledForChannel (st.botConfig.getD default) replyTarget
          baseCommand = false then
      (st, [])
    else if HasPermission st.userlevels st.settings hostmask
        cmd.requiredLevel = false then
      if cmd.requiredLevel = .Owner then
        (st, [Effect.privmsg replyTarget ("Access denied. Command " ++ sq ++
          baseCommand ++ sq ++ " requires owner access.")])
      else
        (st, [Effect.privmsg replyTarget ("Access denied. Command " ++ sq ++
          baseCommand ++ sq ++ " requires " ++ levelName cmd.requiredLevel ++
          " level. Your level: " ++ levelName userLevel)])
    else
      (st, [Effect.commandInvoked baseCommand args])

/-- Command router (`commands.HandleCommand`): parse, drop Ignored senders,
rate-limit with warning/auto-ignore escalation, then hand off to
`handleCommandRest`. The auto-ignore branch stores the demotion through the
nick-keyed legacy `SetUserLevel`, passing the full hostmask. -/
def HandleCommand (st : BotState) (botNick : String) (m : Msg) (now : Int) :
    BotState × List Effect :=
  let cmdText := trimStr m.trailing
  match fields cmdText with
  | [] => (st, [])
  | first :: argList =>
    let replyTarget0 := m.params.headD ""
    let isChannelMsg0 := hasPrefixStr replyTarget0 "#"
    let replyTarget := if replyTarget0 = botNick then m.prefixName else replyTarget0
    let isChannelMsg := if replyTarget0 = botNick then false else isChannelMsg0
    let baseCommand := if hasPrefixStr first "!" then dropStr first 1 else first
    let userNick := m.prefixName
    let hostmask := prefixString m
    let userLevel := GetUserLevelByHostmask st.userlevels st.settings hostmask
    if userLevel = .Ignored then (st, [])
    else
      let tc := TrackCommand st.tracker hostmask baseCommand now
      let st1 := { st with tracker := tc.2.2 }
      if tc.1 then
        let aw := AddWarning st1.tracker hostmask
        let st2 := { st1 with tracker := aw.2 }
        if aw.1 then
          let ul := SetUserLevel st2.userlevels hostmask .Ignored
          let st3 := { st2 with userlevels := ul, settings := SaveHostmasks ul st2.settings }
          (st3,
           [Effect.notice userNick
              "You have been automatically ignored for command spam protection."] ++
           (if isChannelMsg then
              [Effect.privmsg replyTarget ("User " ++ userNick ++
                " has been automatically ignored for command spam protection.")]
            else []))
        else
          let warningCount := GetWarningCount st2.tracker hostmask
          let threshold := GetWarningThreshold st2.tracker
          let warnEff := Effect.notice userNick ("Warning (" ++
            toString warningCount ++ "/" ++ toString threshold ++
            "): Please slow down command usage to avoid being automatically ignored.")
          let rest := handleCommandRest st2 replyTarget isChannelMsg baseCommand
            argList hostmask userLevel
          (rest.1, warnEff :: rest.2)
      else
        handleCommandRest st1 replyTarget isChannelMsg baseCommand argList
          hostmask userLevel

/-! ### internal/handlers: event dispatch, channel and private handlers -/

/-- Nick-mention detection (`containsNick` in handlers.go): lowercased exact
match, leading match followed by space or punctuation, addressing patterns,
word-boundary matches, then a whole-word scan. -/
def containsNick (nick text : String) : Bool :=
  let lowerText := lowerStr text
  let lowerNick := lowerStr nick
  let patterns := [lowerNick ++ " ", " " ++ lowerNick, lowerNick ++ ":",
    lowerNick ++ ",", lowerNick ++ ".", lowerNick ++ "?", lowerNick ++ "!",
    "@" ++ lowerNick]
  if lowerText = lowerNick then true
  else if hasPrefixStr lowerText lowerNick = true ∧ strLen lowerText > strLen lowerNick ∧
      (let nextChar := frontStr (dropStr lowerText (strLen lowerNick))
       nextChar = ' ' ∨ nextChar ∈ [',', ':', ';', '.', '!', '?']) then true
  else if patterns.any (fun p => strContains lowerText p) then true
  else if strContains lowerText (" " ++ lowerNick ++ " ") then true
  else if hasSuffixStr lowerText (" " ++ lowerNick) then true
  else (fields lowerText).any
    (fun word => word == lowerNick || trimRightPunct word == lowerNick)

/-- URL detection (`CheckForURL`). -/
def checkForURL (message : String) : Bool :=
  strContains message "http"

/-- Per-plugin fan-out for one event (the loop body of `dispatchToPlugins`):
the generic `OnMessage` always runs, then the event-specific optional
capability matching the command type. -/
def pluginDispatchFor (botNick : String) (m : Msg) (plug : PluginModel) :
    List Effect :=
  [Effect.pluginOnMessage plug.name] ++
  (if m.command = "PRIVMSG" then
    (if plug.hasPrivMsg then [Effect.pluginHandler plug.name "OnPrivMsg"] else []) ++
    (if containsNick botNick m.trailing ∧ plug.hasNickMention then
      [Effect.pluginHandler plug.name "OnNickMention"] else [])
  else if m.command = "KICK" then
    (if plug.hasKick then [Effect.pluginHandler plug.name "OnKick"] else [])
  else if m.command = "JOIN" then
    (if plug.hasJoin then [Effect.pluginHandler plug.name "OnJoin"] else [])
  else if m.command = "PART" then
    (if plug.hasPart then [Effect.pluginHandler plug.name "OnPart"] else [])
  else if m.command = "QUIT" then
    (if plug.hasQuit then [Effect.pluginHandler plug.name "OnQuit"] else [])
  else if m.command = "NICK" then
    (if plug.hasNickChange then [Effect.pluginHandler plug.name "OnNickChange"] else [])
  else if m.command = "INVITE" then
    (if plug.hasInvite then [Effect.pluginHandler plug.name "OnInvite"] else [])
  else if m.command = "TOPIC" ∨ m.command = "332" ∨ m.command = "333" then
    (if plug.hasTopicChange then [Effect.pluginHandler plug.name "OnTopicChange"] else [])
  else if m.command = "NOTICE" then
    (if plug.hasNotice then [Effect.pluginHandler plug.name "OnNotice"] else [])
  else if m.command = "ERROR" then
    (if plug.hasError then [Effect.pluginHandler plug.name "OnError"] else [])
  else if m.command = "MODE" then
    (if plug.hasMode then [Effect.pluginHandler plug.name "OnMode"] else [])
  else [])

/-- Event fan-out (`dispatchToPlugins`): every loaded plugin observes the
event. -/
def dispatchToPlugins (mgr : ManagerState) (botNick : String) (m : Msg) :
    List Effect :=
  (GetPluginObjects mgr).flatMap (pluginDispatchFor botNick m)

/-- Tail of `HandleChannelMessage` after the rate-limit block: the switch on
bot mention (AI reply when enabled for the channel), command prefix, URL
(logging only), and the default logging case. -/
def handleChannelRest (st : BotState) (botNick : String) (m : Msg) (now : Int) :
    BotState × List Effect :=
  let message := m.trailing
  let userNick := m.prefixName
  let channel := m.params.headD ""
  let isBotMentioned := containsNick botNick message
  let isCommand := hasPrefixStr message "!"
  let hasURL := checkForURL message
  if isBotMentioned then
    let useAI :=
      match st.botConfig with
      | some cfg =>
        (match GetChannelSetting cfg channel "use_ai_for_mentions" (.b true) with
         | .b v => v
         | .s v => v == "true" || v == "1" || v == "yes"
         | .other => false)
      | none => false
    if useAI then (st, [Effect.aiResponse channel userNick])
    else (st, [])
  else if isCommand then HandleCommand st botNick m now
  else if hasURL then (st, [])
  else (st, [])

/-- Channel message handler (`HandleChannelMessage`): Ignored senders are
only logged; otherwise the message rate is tracked with warning/auto-ignore
escalation before the mention/command/URL switch. -/
def HandleChannelMessage (st : BotState) (botNick : String) (m : Msg)
    (now : Int) : BotState × List Effect :=
  let userNick := m.prefixName
  let channel := m.params.headD ""
  let hostmask := prefixString m
  let userLevel := GetUserLevelByHostmask st.userlevels st.settings hostmask
  if userLevel = .Ignored then (st, [])
  else
    let tm := TrackMessage st.tracker hostmask now
    let st1 := { st with tracker := tm.2.2 }
    if tm.1 then
      let aw := AddWarning st1.tracker hostmask
      let st2 := { st1 with tracker := aw.2 }
      if aw.1 then
        let ul := SetUserLevel st2.userlevels hostmask .Ignored
        let st3 := { st2 with userlevels := ul, settings := SaveHostmasks ul st2.settings }
        (st3, [Effect.privmsg channel ("User " ++ userNick ++
          " has been automatically ignored for spam protection.")])
      else
        let warningCount := GetWarningCount st2.tracker hostmask
        let threshold := GetWarningThreshold st2.tracker
        let warnEff := Effect.notice userNick ("Warning (" ++
          toString warningCount ++ "/" ++ toString threshold ++
          "): Please slow down to avoid being automatically ignored.")
        let rest := handleChannelRest st2 botNick m now
        (rest.1, warnEff :: rest.2)
    else handleChannelRest st1 botNick m now

/-- Outcomes of the external collaborators used by the verification path:
whether `security.GenerateHash` succeeds and its (random-salted) result,
and whether `config.SaveSettings` succeeds. -/
structure ExtOracle where
  hashOk : Bool
  hashVal : String
  saveOk : Bool
deriving DecidableEq

/-- Pending-verification lookup (`checkPendingVerification`): exact key
first, then a case-folded scan. -/
def checkPendingVerification (pending : List (String × Bool))
    (userNick : String) : Bool :=
  match lookupA pending userNick with
  | some isPending => isPending
  | none =>
    match pending.find? (fun e => eqFold userNick e.1) with
    | some e => e.2
    | none => false

/-- Owner test used by the private-message handler (`checkIfOwner`):
verification complete and exact hostmask equality. -/
def checkIfOwner (s : Settings) (hostmask : String) : Bool :=
  s.ownerVerified && decide (s.ownerHostmask ≠ "") &&
    decide (hostmask = s.ownerHostmask)

/-- Success lines sent after a verified passphrase (empty lines skipped on
send). -/
def ownerSuccessMessages (hostmask : String) : List String :=
  ["✅ Verification successful!", "",
   "You are now confirmed as the bot owner with the hostmask:", hostmask, "",
   "This hostmask will be used for all future authentication,", "",
   "You can use the following command to set permission levels for other users:",
   "!setlevel <hostmask> <level>", "",
   "Available levels: owner, admin, regular, badboy"]

/-- Failure lines sent after a mismatched passphrase. -/
def ownerFailMessages : List String :=
  ["❌ Verification failed!", "",
   "The passphrase you provided did not match the one configured during setup.",
   "Please try again with the correct passphrase.", "",
   "If you" ++ sq ++ "ve forgotten the passphrase, you" ++ sq ++
     "ll need to restart the bot",
   "and go through the security setup process again."]

/-- Sends a list of lines as private messages, skipping whitespace-only
lines (the loops in part_007). -/
def sendLines (target : String) (msgs : List String) : List Effect :=
  (msgs.filter (fun s => trimStr s ≠ "")).map (fun s => Effect.privmsg target s)

/-- Owner-verification reply handler (`handleOwnerVerification`): the
trimmed reply is compared to the configured passphrase; on match the sender
hostmask is hashed-recorded as the durable Owner identity, the in-memory
maps updated, and pending state cleared; on mismatch nothing changes. -/
def handleOwnerVerification (st : BotState) (ownerNick message : String)
    (m : Msg) (oracle : ExtOracle) : BotState × List Effect :=
  let passphrase := trimStr message
  let hostmask := prefixString m
  if passphrase = st.verificationPassphrase then
    if oracle.hashOk = false then
      (st, [Effect.privmsg ownerNick
        "Verification failed due to an internal error. Please restart the bot."])
    else
      let newSettings : Settings :=
        { ownerVerified := true, ownerPasshash := oracle.hashVal,
          ownerHostmask := hostmask, hostmaskLevels := true,
          hostmasks := [⟨hostmask, (UserLevel.Owner.toNat : Int)⟩] }
      if oracle.saveOk = false then
        (st, [Effect.privmsg ownerNick
          "Verification failed due to an error saving settings. Please restart the bot."])
      else
        let st1 := { st with settings := newSettings, userlevels := SetUserLevelByHostmask st.userlevels hostmask .Owner, pending := setA st.pending ownerNick false }
        (st1, sendLines ownerNick (ownerSuccessMessages hostmask))
  else
    (st, sendLines ownerNick ownerFailMessages)

/-- Level-name parsing in `handleSetLevelCommand`. -/
def parseLevelStr : String → Option UserLevel
  | "owner" => some .Owner
  | "admin" => some .Admin
  | "regular" => some .Regular
  | "badboy" => some .BadBoy
  | _ => none

/-- Owner private `!setlevel` handler (`handleSetLevelCommand`); the
durable-save error text carries the external error, abbreviated here. -/
def handleSetLevelCommand (st : BotState) (m : Msg) (message : String)
    (oracle : ExtOracle) : BotState × List Effect :=
  let userNick := m.prefixName
  let parts := fields message
  if parts.length ≠ 3 then
    (st, [Effect.privmsg userNick "Invalid format. Use: !setlevel <hostmask> <level>"])
  else
    let targetHostmask := parts.getD 1 ""
    let levelStr := lowerStr (parts.getD 2 "")
    match parseLevelStr levelStr with
    | none =>
      (st, [Effect.privmsg userNick "Invalid level. Use: owner, admin, regular, or badboy"])
    | some level =>
      let ul := SetUserLevelByHostmask st.userlevels targetHostmask level
      let st1 := { st with userlevels := ul }
      if oracle.saveOk = false then
        (st1, [Effect.privmsg userNick "Error saving hostmask levels: save failed"])
      else
        let st2 := { st1 with settings := SaveHostmasks ul st1.settings }
        (st2, [Effect.privmsg userNick ("User level for " ++ targetHostmask ++
          " set to " ++ levelStr)])

/-- Tail of `HandlePrivateMessage` after the rate-limit block: the switch on
pending verification, owner setlevel, unauthorized command, empty message,
and the default response. -/
def handlePrivateRest (st : BotState) (m : Msg) (oracle : ExtOracle) :
    BotState × List Effect :=
  let message := m.trailing
  let userNick := m.prefixName
  let hostmask := prefixString m
  let isPending := checkPendingVerification st.pending userNick
  let isOwner := checkIfOwner st.settings hostmask
  let isSetLevelCmd := hasPrefixStr message "!setlevel "
  let isCommand := hasPrefixStr message "!"
  if isPending then handleOwnerVerification st userNick message m oracle
  else if isOwner && isSetLevelCmd then handleSetLevelCommand st m message oracle
  else if isCommand && !isOwner then
    (st, [Effect.privmsg userNick "You are not authorized to use bot commands."])
  else if trimStr message = "" then (st, [])
  else
    (st, [Effect.privmsg userNick
      "I am just a bot, And i am only answering in channels right now.."])

/-- Private message handler (`HandlePrivateMessage`): Ignored senders are
only logged; otherwise rate tracking with escalation, then the private
switch. -/
def HandlePrivateMessage (st : BotState) (m : Msg) (now : Int)
    (oracle : ExtOracle) : BotState × List Effect :=
  let userNick := m.prefixName
  let hostmask := prefixString m
  let userLevel := GetUserLevelByHostmask st.userlevels st.settings hostmask
  if userLevel = .Ignored then (st, [])
  else
    let tm := TrackMessage st.tracker hostmask now
    let st1 := { st with tracker := tm.2.2 }
    if tm.1 then
      let aw := AddWarning st1.tracker hostmask
      let st2 := { st1 with tracker := aw.2 }
      if aw.1 then
        let ul := SetUserLevel st2.userlevels hostmask .Ignored
        let st3 := { st2 with userlevels := ul, settings := SaveHostmasks ul st2.settings }
        (st3, [Effect.notice userNick
          "You have been automatically ignored for spam protection."])
      else
        let warningCount := GetWarningCount st2.tracker hostmask
        let threshold := GetWarningThreshold st2.tracker
        let warnEff := Effect.notice userNick ("Warning (" ++
          toString warningCount ++ "/" ++ toString threshold ++
          "): Please slow down to avoid being automatically ignored.")
        let rest := handlePrivateRest st2 m oracle
        (rest.1, warnEff :: rest.2)
    else handlePrivateRest st1 m oracle

/-- Single funnel for inbound events (`HandleMessages`): PING is answered,
PRIVMSG is routed to the private or channel handler; the remaining arms
perform connection bookkeeping and logging only (out of scope, no modelled
effects). The message is then unconditionally dispatched to every loaded
plugin. -/
def HandleMessages (st : BotState) (botNick : String) (m : Msg) (now : Int)
    (oracle : ExtOracle) : BotState × List Effect :=
  let builtIn :=
    if m.command = "PING" then (st, [Effect.pong m.trailing])
    else if m.command = "PRIVMSG" then
      if m.params.headD "" = botNick then HandlePrivateMessage st m now oracle
      else HandleChannelMessage st botNick m now
    else (st, ([] : List Effect))
  (builtIn.1, builtIn.2 ++ dispatchToPlugins builtIn.1.mgr botNick m)

/-! ### Runs of the rate limiter (for the sliding-window claim) -/

/-- One tracked-message call per listed timestamp, collecting each call's
(exceeded, countInWindow) result. -/
def runTrackMessage (tr : TrackerState) (hostmask : String) :
    List Int → TrackerState × List (Bool × Int)
  | [] => (tr, [])
  | t :: ts =>
    let r := TrackMessage tr hostmask t
    let rest := runTrackMessage r.2.2 hostmask ts
    (rest.1, (r.1, r.2.1) :: rest.2)

/-- One tracked-command call per listed timestamp. -/
def runTrackCommand (tr : TrackerState) (hostmask cmdName : String) :
    List Int → TrackerState × List (Bool × Int)
  | [] => (tr, [])
  | t :: ts =>
    let r := TrackCommand tr hostmask cmdName t
    let rest := runTrackCommand r.2.2 hostmask cmdName ts
    (rest.1, (r.1, r.2.1) :: rest.2)

/-- The evolution of one identity's timestamp list under successive calls:
append the call time, prune entries at or before the new cutoff. -/
def trackList (W : Int) (ts : List Int) : List Int → List Int
  | [] => ts
  | t :: calls => trackList W (pruneAfter (t - W) (ts ++ [t])) calls

/-! ### Concrete fixtures used by the claim checks -/

/-- Empty permission maps. -/
def emptyUls : UserLevelsState := ⟨[], []⟩

/-- Fresh durable settings (first run, nothing verified). -/
def emptySettings : Settings := ⟨false, "", "", false, []⟩

/-- Empty plugin registry. -/
def emptyMgr : ManagerState := ⟨[], []⟩

/-- A plugin with only the required capabilities plus an unload hook. -/
def basePlugin : PluginModel :=
  { name := "P", version := "1.0", onLoadFails := false, hasUnload := true,
    commands := none, hasPrivMsg := false, hasNickMention := false,
    hasKick := false, hasJoin := false, hasPart := false, hasQuit := false,
    hasNickChange := false, hasInvite := false, hasTopicChange := false,
    hasNotice := false, hasError := false, hasMode := false }

/-- A bot state with the given pieces and empty defaults elsewhere. -/
def mkState (uls : UserLevelsState) (s : Settings) (tr : TrackerState)
    (mgr : ManagerState) (reg : List (String × RegisteredCommand))
    (cfg : Option Config) : BotState :=
  { userlevels := uls, settings := s, tracker := tr, mgr := mgr,
    registry := reg, botConfig := cfg, pending := [],
    verificationPassphrase := "" }

/-- Tracker tuned so the second identical command in a window is a
violation and two warnings reach the threshold. -/
def c1Tracker : TrackerState :=
  { NewMessageTracker with maxCommandsPerWindow := 1, warningThreshold := 2 }

/-- Initial state for the C1 scenario. -/
def c1State : BotState := mkState emptyUls emptySettings c1Tracker emptyMgr [] none

/-- Channel message `!ping` from alice!u@h in #c. -/
def c1Msg : Msg :=
  { command := "PRIVMSG", prefixName := "alice", prefixUser := "u",
    prefixHost := "h", params := ["#c"], trailing := "!ping" }

/-- Three `!ping` commands at seconds 1, 2, 3: the second and third violate
the rate limit, the third reaches the warning threshold. -/
def c1Run : BotState × List Effect :=
  HandleCommand
    ((HandleCommand ((HandleCommand c1State "mbot" c1Msg 1).1) "mbot" c1Msg 2).1)
    "mbot" c1Msg 3

/-! ### Claim C1 -/

/-- C1: after exactly `warningThreshold` rate-limit violations the handling
path takes the auto-ignore branch (both notifications are sent, a demotion
is stored in the in-memory maps and persisted to the settings), and no
other identity's warning count is touched — but the demotion is recorded
through the nick-keyed legacy `SetUserLevel` called with the full hostmask,
creating the keys `alice!u@h!*@*` and (in `users`) `alice!u@h`, neither of
which `GetUserLevelByHostmask "alice!u@h"` consults; the subsequent
resolution therefore yields Regular where the claim requires Ignored. -/
theorem C1_autoignore_demotion_unresolvable :
    c1Run.2 =
      [Effect.notice "alice"
         "You have been automatically ignored for command spam protection.",
       Effect.privmsg "#c"
         "User alice has been automatically ignored for command spam protection."]
    ∧ lookupA c1Run.1.userlevels.hostmaskUsers "alice!u@h!*@*" = some .Ignored
    ∧ lookupA c1Run.1.userlevels.users "alice!u@h" = some .Ignored
    ∧ c1Run.1.settings.hostmasks = [⟨"alice!u@h!*@*", 0⟩]
    ∧ lookupA c1Run.1.tracker.warningCounts "alice!u@h" = some 2
    ∧ lookupA c1Run.1.tracker.warningCounts "bob!u@h" = none
    ∧ GetUserLevelByHostmask c1Run.1.userlevels c1Run.1.settings "alice!u@h"
        = .Regular := by
  decide

/-! ### Claim C6 -/

/-- C6: loading a module while a module of the same name and the same
version is already loaded is a no-op: the manager state is unchanged (the
module is neither unloaded nor replaced), no OnUnload and no OnLoad hook is
invoked, and no error is returned. -/
theorem C6_load_same_version_noop (mgr : ManagerState) (plug : PluginModel)
    (path : String) (now : Int) (info : PluginInfo)
    (hl : lookupA mgr.plugins plug.name = some info)
    (hv : info.version = plug.version) :
    LoadPlugin mgr plug path now = (mgr, [], false) := by
  simp [LoadPlugin, hl, hv]

/-- Manager holding basePlugin version 1.0. -/
def c6Mgr : ManagerState :=
  ⟨[("P", ⟨basePlugin, "1.0", 0, "plugins/P.so"⟩)], [("P", "plugins/P.so")]⟩

/-- C6 witness: reloading the same (name, version) pair concretely. -/
theorem C6_witness :
    LoadPlugin c6Mgr basePlugin "plugins/P.so" 5 = (c6Mgr, [], false) :=
  C6_load_same_version_noop c6Mgr basePlugin "plugins/P.so" 5
    ⟨basePlugin, "1.0", 0, "plugins/P.so"⟩ (by decide) (by decide)

/-! ### Claim C7 -/

/-- C7: loading a module whose name matches a loaded module but whose
version differs invokes the old module's OnUnload hook (present — the
`Unloader` interface is optional in the code) exactly once, before the new
module's OnLoad hook, and key uniqueness of the registry is preserved, so
it never holds two modules with one name. -/
theorem C7_load_diff_version_hotswap (mgr : ManagerState) (plug : PluginModel)
    (path : String) (now : Int) (info : PluginInfo)
    (hl : lookupA mgr.plugins plug.name = some info)
    (hv : ¬ info.version = plug.version)
    (hu : info.plugin.hasUnload = true) :
    (LoadPlugin mgr plug path now).2.1 =
      [HookEvent.onUnload plug.name info.version,
       HookEvent.onLoad plug.name plug.version]
    ∧ (keysNodup mgr.plugins → keysNodup (LoadPlugin mgr plug path now).1.plugins) := by
  constructor
  · cases hf : plug.onLoadFails <;> simp [LoadPlugin, hl, hv, hu, hf]
  · intro hnd
    cases hf : plug.onLoadFails <;> simp [LoadPlugin, hl, hv, hu, hf]
    · exact keysNodup_setA _ _ _ hnd
    · exact hnd

/-- The same plugin rebuilt as version 2.0. -/
def c7NewPlugin : PluginModel := { basePlugin with version := "2.0" }

/-- C7 witness: hot-swapping 1.0 to 2.0 concretely. -/
theorem C7_witness :
    (LoadPlugin c6Mgr c7NewPlugin "plugins/P_v2.so" 9).2.1 =
      [HookEvent.onUnload "P" "1.0", HookEvent.onLoad "P" "2.0"]
    ∧ (keysNodup c6Mgr.plugins →
        keysNodup (LoadPlugin c6Mgr c7NewPlugin "plugins/P_v2.so" 9).1.plugins) :=
  C7_load_diff_version_hotswap c6Mgr c7NewPlugin "plugins/P_v2.so" 9
    ⟨basePlugin, "1.0", 0, "plugins/P.so"⟩ (by decide) (by decide) (by decide)

/-! ### Claim C10 -/

/-- C10: `SetUserLevelByHostmask h1 L` also records L under the bare
nickname portion of h1, so any other hostmask h2 with the same nickname
portion, no exact hostmask record, and not the verified-owner hostmask is
resolved by `GetUserLevelByHostmask` to L instead of the default Regular. -/
theorem C10_nick_portion_fallback (st : UserLevelsState) (s : Settings)
    (h1 h2 : String) (L : UserLevel)
    (hnick : nickPart h2 = nickPart h1)
    (hnoexact : lookupA (SetUserLevelByHostmask st h1 L).hostmaskUsers h2 = none)
    (howner : s.ownerVerified = true → s.ownerHostmask ≠ "" → h2 ≠ s.ownerHostmask) :
    lookupA (SetUserLevelByHostmask st h1 L).users (nickPart h1) = some L
    ∧ GetUserLevelByHostmask (SetUserLevelByHostmask st h1 L) s h2 = L := by
  constructor
  · simp [SetUserLevelByHostmask, lookupA_setA_self]
  · simp only [GetUserLevelByHostmask, hnoexact]
    rw [if_neg]
    · simp [SetUserLevelByHostmask, hnick, lookupA_setA_self]
    · rintro ⟨ho1, ho2, ho3⟩
      exact howner ho1 ho2 ho3

/-! ### Claim C5 -/

/-- C5: the channel-policy evaluation denies every name on the deny-list
(deny overrides allow); with a non-empty allow-list it allows exactly the
names on the allow-list (and not denied); with an empty allow-list it
allows everything not denied; and in the command router a registry command
denied by this evaluation for the message's channel is silently dropped —
no handler runs, no reply is sent — regardless of the sender's level. -/
theorem C5_channel_policy :
    (∀ cfg channel name,
      (GetChannelConfig cfg channel).disabledCommands.contains name = true →
      IsCommandEnabledForChannel cfg channel name = false)
    ∧ (∀ cfg channel name,
      (GetChannelConfig cfg channel).enabledCommands ≠ [] →
      (IsCommandEnabledForChannel cfg channel name = true ↔
        ((GetChannelConfig cfg channel).disabledCommands.contains name = false ∧
         (GetChannelConfig cfg channel).enabledCommands.contains name = true)))
    ∧ (∀ cfg channel name,
      (GetChannelConfig cfg channel).enabledCommands = [] →
      (GetChannelConfig cfg channel).disabledCommands.contains name = false →
      IsCommandEnabledForChannel cfg channel name = true)
    ∧ (∀ (st : BotState) (botNick : String) (m : Msg) (now : Int)
        (first baseCommand : String) (argList : List String)
        (cfg : Config) (cmd : RegisteredCommand),
      fields (trimStr m.trailing) = first :: argList →
      (if hasPrefixStr first "!" then dropStr first 1 else first) = baseCommand →
      m.params.headD "" ≠ botNick →
      hasPrefixStr (m.params.headD "") "#" = true →
      GetUserLevelByHostmask st.userlevels st.settings (prefixString m) ≠ .Ignored →
      (TrackCommand st.tracker (prefixString m) baseCommand now).1 = false →
      st.botConfig = some cfg →
      lookupA st.registry baseCommand = some cmd →
      IsCommandEnabledForChannel cfg (m.params.headD "") baseCommand = false →
      HandleCommand st botNick m now =
        ({ st with tracker :=
            (TrackCommand st.tracker (prefixString m) baseCommand now).2.2 }, [])) := by
  refine ⟨?_, ?_, ?_, ?_⟩
  · intro cfg channel name h
    simp only [IsCommandEnabledForChannel]
    rw [if_pos h]
  · intro cfg channel name h
    by_cases hd : (GetChannelConfig cfg channel).disabledCommands.contains name = true
    · simp only [IsCommandEnabledForChannel]
      rw [if_pos hd]
      constructor
      · intro hh
        simp at hh
      · rintro ⟨h1, h2⟩
        rw [hd] at h1
        simp at h1
    · simp only [Bool.not_eq_true] at hd
      simp only [IsCommandEnabledForChannel]
      rw [if_neg (by rw [hd]; simp), if_pos h]
      constructor
      · intro hh
        exact ⟨hd, hh⟩
      · rintro ⟨h1, h2⟩
        exact h2
  · intro cfg channel name he hd
    simp only [IsCommandEnabledForChannel]
    rw [if_neg (by rw [hd]; simp), if_neg (fun hh => hh he)]
  · intro st botNick m now first baseCommand argList cfg cmd
      hf hb hbot hchan hign hns hcfg hreg hpol
    simp only [HandleCommand, hf, hb]
    simp only [if_neg hbot, if_neg hign]
    simp only [hns, Bool.false_eq_true, if_false]
    simp only [handleCommandRest, hreg]
    rw [if_pos]
    exact ⟨hchan, by simp [hcfg], by simp only [hcfg, Option.getD_some]; exact hpol⟩

/-- Channel #c restricted to the allow-list [say]. -/
def c5Cfg : Config := ⟨[("#c", ⟨["say"], [], []⟩)]⟩

/-- Settings with a verified owner omar!u@h. -/
def c5Settings : Settings := ⟨true, "hash", "omar!u@h", false, []⟩

/-- Router state: registry knows help (Regular), channel policy allows only
say, sender is the verified owner. -/
def c5State : BotState :=
  mkState emptyUls c5Settings NewMessageTracker emptyMgr
    [("help", ⟨"help", "Show help", .Regular⟩)] (some c5Cfg)

/-- Message `!help` in #c from the verified owner. -/
def c5Msg : Msg :=
  { command := "PRIVMSG", prefixName := "omar", prefixUser := "u",
    prefixHost := "h", params := ["#c"], trailing := "!help" }

/-- C5 witness: a deny-listed command evaluates to denied, and `!help` from
the Owner-level sender in an allow-list [say] channel is silently dropped. -/
theorem C5_witness :
    IsCommandEnabledForChannel (⟨[("#c", ⟨[], ["say"], []⟩)]⟩ : Config) "#c" "say" = false
    ∧ HandleCommand c5State "mbot" c5Msg 1 =
        ({ c5State with tracker :=
            (TrackCommand c5State.tracker "omar!u@h" "help" 1).2.2 }, []) := by
  constructor
  · exact C5_channel_policy.1 _ "#c" "say" (by decide)
  · have h := C5_channel_policy.2.2.2 c5State "mbot" c5Msg 1 "!help" "help" []
      c5Cfg ⟨"help", "Show help", .Regular⟩ (by decide) (by decide) (by decide)
      (by decide) (by decide) (by decide) (by decide) (by decide) (by decide)
    rw [show prefixString c5Msg = "omar!u@h" from by decide] at h
    exact h

/-! ### Claim C4 -/

/-- Config denying echo2 in #c. -/
def c4Cfg : Config := ⟨[("#c", ⟨[], ["echo2"], []⟩)]⟩

/-- Plugin declaring the command echo2. -/
def c4Plugin : PluginModel := { basePlugin with commands := some ["echo2"] }

/-- State whose registry lacks echo2, with the plugin loaded and the
channel policy denying echo2. -/
def c4State : BotState :=
  mkState emptyUls emptySettings NewMessageTracker
    ⟨[("P", ⟨c4Plugin, "1.0", 0, "p"⟩)], [("P", "p")]⟩ [] (some c4Cfg)

/-- Message `!echo2` in #c. -/
def c4Msg : Msg :=
  { command := "PRIVMSG", prefixName := "rita", prefixUser := "u",
    prefixHost := "h", params := ["#c"], trailing := "!echo2" }

/-- C4 counterexample: the channel policy denies echo2 in #c, yet the
module's command handler is invoked for `!echo2` there — the claim that a
module-handled command is subject to the allow/deny evaluation (and dropped
on failure) is false on this input. -/
theorem C4_counterexample :
    IsCommandEnabledForChannel c4Cfg "#c" "echo2" = false
    ∧ (HandleCommand c4State "mbot" c4Msg 1).2 =
        [Effect.pluginCommandInvoked "P" "echo2"] := by
  decide

/-- C4 amended: a command-prefixed message whose base command is absent
from the static registry is offered to the module registry immediately:
the result is exactly the plugin dispatch, with no channel allow/deny
evaluation and no permission-level check applied (they are not consulted at
all on this path); the allow/deny silent drop applies only to
static-registry commands. -/
theorem C4_plugin_commands_bypass_policy :
    (∀ (st : BotState) (botNick : String) (m : Msg) (now : Int)
      (first baseCommand : String) (argList : List String),
      fields (trimStr m.trailing) = first :: argList →
      (if hasPrefixStr first "!" then dropStr first 1 else first) = baseCommand →
      GetUserLevelByHostmask st.userlevels st.settings (prefixString m) ≠ .Ignored →
      (TrackCommand st.tracker (prefixString m) baseCommand now).1 = false →
      lookupA st.registry baseCommand = none →
      HandleCommand st botNick m now =
        ({ st with tracker :=
            (TrackCommand st.tracker (prefixString m) baseCommand now).2.2 },
         (HandlePluginCommand st.mgr baseCommand).1))
    ∧ (∀ (st : BotState) (botNick : String) (m : Msg) (now : Int)
        (first baseCommand : String) (argList : List String)
        (cfg : Config) (cmd : RegisteredCommand),
      fields (trimStr m.trailing) = first :: argList →
      (if hasPrefixStr first "!" then dropStr first 1 else first) = baseCommand →
      m.params.headD "" ≠ botNick →
      hasPrefixStr (m.params.headD "") "#" = true →
      GetUserLevelByHostmask st.userlevels st.settings (prefixString m) ≠ .Ignored →
      (TrackCommand st.tracker (prefixString m) baseCommand now).1 = false →
      st.botConfig = some cfg →
      lookupA st.registry baseCommand = some cmd →
      IsCommandEnabledForChannel cfg (m.params.headD "") baseCommand = false →
      (HandleCommand st botNick m now).2 = []) := by
  constructor
  · intro st botNick m now first baseCommand argList hf hb hign hns hreg
    simp only [HandleCommand, hf, hb]
    simp only [if_neg hign]
    simp only [hns, Bool.false_eq_true, if_false]
    simp only [handleCommandRest, hreg]
  · intro st botNick m now first baseCommand argList cfg cmd
      hf hb hbot hchan hign hns hcfg hreg hpol
    simp only [HandleCommand, hf, hb]
    simp only [if_neg hbot, if_neg hign]
    simp only [hns, Bool.false_eq_true, if_false]
    simp only [handleCommandRest, hreg]
    rw [if_pos]
    exact ⟨hchan, by simp [hcfg], by simp only [hcfg, Option.getD_some]; exact hpol⟩

/-- C4 witness: the bypass equality and the registry-command drop at
concrete inputs. -/
theorem C4_witness :
    HandleCommand c4State "mbot" c4Msg 1 =
      ({ c4State with tracker :=
          (TrackCommand c4State.tracker "rita!u@h" "echo2" 1).2.2 },
       (HandlePluginCommand c4State.mgr "echo2").1)
    ∧ (HandleCommand c5State "mbot" c5Msg 1).2 = [] := by
  constructor
  · have h := C4_plugin_commands_bypass_policy.1 c4State "mbot" c4Msg 1
      "!echo2" "echo2" [] (by decide) (by decide) (by decide) (by decide)
      (by decide)
    rw [show prefixString c4Msg = "rita!u@h" from by decide] at h
    exact h
  · exact C4_plugin_commands_bypass_policy.2 c5State "mbot" c5Msg 1 "!help"
      "help" [] c5Cfg ⟨"help", "Show help", .Regular⟩ (by decide) (by decide)
      (by decide) (by decide) (by decide) (by decide) (by decide) (by decide)
      (by decide)

/-! ### Claim C2 -/

/-- State with ivan!u@h registered as Ignored and one loaded plugin. -/
def c2State : BotState :=
  mkState ⟨[], [("ivan!u@h", .Ignored)]⟩ emptySettings NewMessageTracker
    ⟨[("P", ⟨basePlugin, "1.0", 0, "p"⟩)], [("P", "p")]⟩ [] none

/-- Channel message from the ignored sender. -/
def c2Msg : Msg :=
  { command := "PRIVMSG", prefixName := "ivan", prefixUser := "u",
    prefixHost := "h", params := ["#c"], trailing := "!anything" }

/-- Oracle for external collaborators (all succeeding). -/
def c2Oracle : ExtOracle := ⟨true, "", true⟩

/-- C2 counterexample: the sender resolves to Ignored, yet processing the
inbound message still invokes the loaded module's OnMessage handler —
`HandleMessages` fans every message out to all plugins after the built-in
handling, with no Ignored check, so the claim's "no loaded module's
handlers are invoked" is false on this input. -/
theorem C2_counterexample :
    GetUserLevelByHostmask c2State.userlevels c2State.settings
      (prefixString c2Msg) = .Ignored
    ∧ Effect.pluginOnMessage "P" ∈ (HandleMessages c2State "mbot" c2Msg 7 c2Oracle).2 := by
  decide

/-- C2 amended: for an inbound PRIVMSG whose sender resolves to Ignored, no
command handler executes and the built-in handlers send no reply and change
no state — but the message is still fanned out to every loaded module: the
result is exactly the unchanged state plus the plugin dispatch effects. -/
theorem C2_ignored_short_circuits_builtins (st : BotState) (botNick : String)
    (m : Msg) (now : Int) (oracle : ExtOracle)
    (hcmd : m.command = "PRIVMSG")
    (hIgn : GetUserLevelByHostmask st.userlevels st.settings (prefixString m)
      = .Ignored) :
    HandleMessages st botNick m now oracle =
      (st, dispatchToPlugins st.mgr botNick m) := by
  simp only [HandleMessages, hcmd]
  rw [if_neg (by decide), if_pos trivial]
  by_cases hp : m.params.headD "" = botNick
  · rw [if_pos hp]
    simp [HandlePrivateMessage, hIgn]
  · rw [if_neg hp]
    simp [HandleChannelMessage, hIgn]

/-- C2 witness: the amended statement at the concrete ignored sender. -/
theorem C2_witness :
    HandleMessages c2State "mbot" c2Msg 7 c2Oracle =
      (c2State, dispatchToPlugins c2State.mgr "mbot" c2Msg) :=
  C2_ignored_short_circuits_builtins c2State "mbot" c2Msg 7 c2Oracle
    (by decide) (by decide)

/-! ### Claim C3 -/

/-- Tracker where every command use is a violation (max 0 in window). -/
def c3Tracker : TrackerState :=
  { NewMessageTracker with maxCommandsPerWindow := 0 }

/-- State with the registry command hello (Regular). -/
def c3State : BotState :=
  mkState emptyUls emptySettings c3Tracker emptyMgr
    [("hello", ⟨"hello", "Greets", .Regular⟩)] none

/-- Message `!hello` in #c from rex!u@h. -/
def c3Msg : Msg :=
  { command := "PRIVMSG", prefixName := "rex", prefixUser := "u",
    prefixHost := "h", params := ["#c"], trailing := "!hello" }

/-- C3 counterexample: the rate-limit check reports a violation and the
warning threshold is not reached, so a warning notice is issued — but the
router does not stop: the command's registry handler is still invoked for
that same message, contradicting the claim's "and then stops". -/
theorem C3_counterexample :
    (TrackCommand c3State.tracker "rex!u@h" "hello" 1).1 = true
    ∧ (HandleCommand c3State "mbot" c3Msg 1).2 =
        [Effect.notice "rex"
           "Warning (1/3): Please slow down command usage to avoid being automatically ignored.",
         Effect.commandInvoked "hello" []] := by
  decide

/-- C3 amended: on a rate-limit violation the router either (threshold
reached) demotes, notifies — the first effect is the auto-ignore notice —
and stops without invoking any registry or module command handler, or
(below threshold) issues a warning notice and still continues with normal
command processing (`handleCommandRest`), whose handler may run. -/
theorem C3_violation_warning_still_processes (st : BotState) (botNick : String)
    (m : Msg) (now : Int) (first baseCommand : String) (argList : List String)
    (hf : fields (trimStr m.trailing) = first :: argList)
    (hb : (if hasPrefixStr first "!" then dropStr first 1 else first) = baseCommand)
    (hign : GetUserLevelByHostmask st.userlevels st.settings (prefixString m)
      ≠ .Ignored)
    (hspam : (TrackCommand st.tracker (prefixString m) baseCommand now).1 = true) :
    ((AddWarning (TrackCommand st.tracker (prefixString m) baseCommand now).2.2
        (prefixString m)).1 = true →
      (HandleCommand st botNick m now).2.head? =
        some (Effect.notice m.prefixName
          "You have been automatically ignored for command spam protection.")
      ∧ ∀ e ∈ (HandleCommand st botNick m now).2,
          (∀ name args, e ≠ Effect.commandInvoked name args) ∧
          (∀ p c, e ≠ Effect.pluginCommandInvoked p c))
    ∧ ((AddWarning (TrackCommand st.tracker (prefixString m) baseCommand now).2.2
        (prefixString m)).1 = false →
      HandleCommand st botNick m now =
        (let st2 : BotState := { st with tracker :=
            (AddWarning (TrackCommand st.tracker (prefixString m) baseCommand
              now).2.2 (prefixString m)).2 }
         let rest := handleCommandRest st2
            (if m.params.headD "" = botNick then m.prefixName else m.params.headD "")
            (if m.params.headD "" = botNick then false
             else hasPrefixStr (m.params.headD "") "#")
            baseCommand argList (prefixString m)
            (GetUserLevelByHostmask st.userlevels st.settings (prefixString m))
         (rest.1, Effect.notice m.prefixName ("Warning (" ++
            toString (GetWarningCount st2.tracker (prefixString m)) ++ "/" ++
            toString (GetWarningThreshold st2.tracker) ++
            "): Please slow down command usage to avoid being automatically ignored.")
          :: rest.2))) := by
  constructor
  · intro haw
    simp only [HandleCommand, hf, hb, if_neg hign, hspam, if_true, haw]
    cases hic : (if m.params.headD "" = botNick then false
        else hasPrefixStr (m.params.headD "") "#") with
    | false =>
      simp only [hic, Bool.false_eq_true, if_false, List.append_nil]
      refine ⟨rfl, ?_⟩
      intro e he
      simp only [List.mem_singleton] at he
      subst he
      exact ⟨fun name args => by simp, fun p c => by simp⟩
    | true =>
      simp only [hic, if_true]
      refine ⟨rfl, ?_⟩
      intro e he
      simp only [List.cons_append, List.nil_append, List.mem_cons,
        List.mem_singleton] at he
      rcases he with rfl | rfl | he
      · exact ⟨fun name args => by simp, fun p c => by simp⟩
      · exact ⟨fun name args => by simp, fun p c => by simp⟩
      · simp at he
  · intro haw
    simp only [HandleCommand, hf, hb, if_neg hign, hspam, if_true, haw,
      Bool.false_eq_true, if_false]

/-- Tracker where the first violation already reaches the threshold. -/
def c3bTracker : TrackerState :=
  { NewMessageTracker with maxCommandsPerWindow := 0, warningThreshold := 1 }

/-- State like c3State but with the single-warning tracker. -/
def c3bState : BotState :=
  mkState emptyUls emptySettings c3bTracker emptyMgr
    [("hello", ⟨"hello", "Greets", .Regular⟩)] none

/-- C3 witness: the threshold branch at a concrete input -- the first
effect is the auto-ignore notice. -/
theorem C3_witness :
    (HandleCommand c3bState "mbot" c3Msg 1).2.head? =
      some (Effect.notice "rex"
        "You have been automatically ignored for command spam protection.") := by
  have h := C3_violation_warning_still_processes c3bState "mbot" c3Msg 1
    "!hello" "hello" [] (by decide) (by decide) (by decide) (by decide)
  exact (h.1 (by decide)).1

/-! ### Claim C9 -/

/-- C9: a private reply from the pending nickname whose trimmed text equals
the configured passphrase records the sender's exact full hostmask as the
durable verified Owner identity (settings verified, owner hostmask set,
hashed passphrase stored) and clears the pending flag, after which the
Owner permission check passes for that hostmask; a mismatched reply leaves
the state — pending included — completely unchanged and only sends the
failure explanation. -/
theorem C9_owner_verification (st : BotState) (ownerNick message : String)
    (m : Msg) (oracle : ExtOracle)
    (hhash : oracle.hashOk = true) (hsave : oracle.saveOk = true)
    (hhm : prefixString m ≠ "") :
    (trimStr message = st.verificationPassphrase →
      (handleOwnerVerification st ownerNick message m oracle).1.settings.ownerVerified = true
      ∧ (handleOwnerVerification st ownerNick message m oracle).1.settings.ownerHostmask
          = prefixString m
      ∧ lookupA (handleOwnerVerification st ownerNick message m oracle).1.pending
          ownerNick = some false
      ∧ checkIfOwner (handleOwnerVerification st ownerNick message m oracle).1.settings
          (prefixString m) = true
      ∧ HasPermission
          (handleOwnerVerification st ownerNick message m oracle).1.userlevels
          (handleOwnerVerification st ownerNick message m oracle).1.settings
          (prefixString m) .Owner = true)
    ∧ (trimStr message ≠ st.verificationPassphrase →
      handleOwnerVerification st ownerNick message m oracle =
        (st, sendLines ownerNick ownerFailMessages)) := by
  constructor
  · intro hmatch
    simp only [handleOwnerVerification]
    rw [if_pos hmatch, if_neg (by rw [hhash]; simp), if_neg (by rw [hsave]; simp)]
    refine ⟨rfl, rfl, lookupA_setA_self _ _ _, ?_, ?_⟩
    · simp [checkIfOwner, hhm]
    · simp [HasPermission, GetUserLevelByHostmask, SetUserLevelByHostmask,
        lookupA_setA_self, IsVerifiedOwner, hhm]
  · intro hne
    simp only [handleOwnerVerification]
    rw [if_neg hne]

/-- Verification-pending state with passphrase s3cret. -/
def c9State : BotState :=
  { mkState emptyUls emptySettings NewMessageTracker emptyMgr [] none with
    pending := [("oscar", true)], verificationPassphrase := "s3cret" }

/-- Private reply carrying the passphrase, from oscar!u@h. -/
def c9Msg : Msg :=
  { command := "PRIVMSG", prefixName := "oscar", prefixUser := "u",
    prefixHost := "h", params := ["mbot"], trailing := " s3cret " }

/-- Oracle where hashing yields a fixed encoded hash and saving succeeds. -/
def c9Oracle : ExtOracle := ⟨true, "argon2id-hash", true⟩

/-- C9 witness: the success branch at the concrete pending owner. -/
theorem C9_witness :
    (handleOwnerVerification c9State "oscar" " s3cret " c9Msg c9Oracle).1.settings.ownerVerified = true
    ∧ (handleOwnerVerification c9State "oscar" " s3cret " c9Msg c9Oracle).1.settings.ownerHostmask
        = prefixString c9Msg
    ∧ lookupA (handleOwnerVerification c9State "oscar" " s3cret " c9Msg c9Oracle).1.pending
        "oscar" = some false
    ∧ checkIfOwner (handleOwnerVerification c9State "oscar" " s3cret " c9Msg c9Oracle).1.settings
        (prefixString c9Msg) = true
    ∧ HasPermission
        (handleOwnerVerification c9State "oscar" " s3cret " c9Msg c9Oracle).1.userlevels
        (handleOwnerVerification c9State "oscar" " s3cret " c9Msg c9Oracle).1.settings
        (prefixString c9Msg) .Owner = true :=
  (C9_owner_verification c9State "oscar" " s3cret " c9Msg c9Oracle
    (by decide) (by decide) (by decide)).1 (by decide)

/-- C10 witness: setting Admin for alice!u@h propagates to alice!x@y. -/
theorem C10_witness :
    lookupA (SetUserLevelByHostmask emptyUls "alice!u@h" .Admin).users "alice"
      = some .Admin
    ∧ GetUserLevelByHostmask (SetUserLevelByHostmask emptyUls "alice!u@h" .Admin)
        emptySettings "alice!x@y" = .Admin := by
  have h := C10_nick_portion_fallback emptyUls emptySettings "alice!u@h"
    "alice!x@y" .Admin (by decide) (by decide)
    (fun hv => by simp [emptySettings] at hv)
  constructor
  · have h1 := h.1
    rw [show nickPart "alice!u@h" = "alice" from by decide] at h1
    exact h1
  · exact h.2

/-! ### Claim C8: sliding-window lemmas -/

theorem getLast?_cons_ne {α : Type} (a : α) (l : List α) (h : l ≠ []) :
    (a :: l).getLast? = l.getLast? := by
  cases l with
  | nil => exact absurd rfl h
  | cons b t => exact List.getLast?_cons_cons


theorem runTrackMessage_length (hostmask : String) (calls : List Int) :
    ∀ tr : TrackerState,
      (runTrackMessage tr hostmask calls).2.length = calls.length := by
  induction calls with
  | nil => intro tr; rfl
  | cons t ts ih => intro tr; simp [runTrackMessage, ih]

theorem runTrackCommand_length (hostmask cmdName : String) (calls : List Int) :
    ∀ tr : TrackerState,
      (runTrackCommand tr hostmask cmdName calls).2.length = calls.length := by
  induction calls with
  | nil => intro tr; rfl
  | cons t ts ih => intro tr; simp [runTrackCommand, ih]

theorem runTrackMessage_last (hostmask : String) (calls : List Int) :
    ∀ tr : TrackerState, calls ≠ [] →
      (runTrackMessage tr hostmask calls).2.getLast? =
        some (decide (tr.maxMessagesPerWindow <
            ((trackList tr.messageWindow
              ((lookupA tr.userMessages hostmask).getD []) calls).length : Int)),
          ((trackList tr.messageWindow
            ((lookupA tr.userMessages hostmask).getD []) calls).length : Int)) := by
  induction calls with
  | nil => intro tr h; exact absurd rfl h
  | cons t ts ih =>
    intro tr _
    cases hts : ts with
    | nil =>
      simp [runTrackMessage, TrackMessage, trackList, pruneAfter]
    | cons t' ts' =>
      have hne : ts ≠ [] := by rw [hts]; simp
      rw [← hts]
      simp only [runTrackMessage]
      have hlen : (runTrackMessage (TrackMessage tr hostmask t).2.2 hostmask ts).2.length
          = ts.length := runTrackMessage_length hostmask ts _
      have htail : (runTrackMessage (TrackMessage tr hostmask t).2.2 hostmask ts).2 ≠ [] := by
        intro hempty
        rw [hempty] at hlen
        rw [hts] at hlen
        simp at hlen
      rw [getLast?_cons_ne _ _ htail]
      rw [ih _ hne]
      simp [TrackMessage, lookupA_setA_self, trackList]

theorem runTrackCommand_last (hostmask cmdName : String) (calls : List Int) :
    ∀ tr : TrackerState, calls ≠ [] →
      (runTrackCommand tr hostmask cmdName calls).2.getLast? =
        some (decide (tr.maxCommandsPerWindow <
            ((trackList tr.commandWindow
              ((lookupA ((lookupA tr.userCommandUsage hostmask).getD [])
                cmdName).getD []) calls).length : Int)),
          ((trackList tr.commandWindow
            ((lookupA ((lookupA tr.userCommandUsage hostmask).getD [])
              cmdName).getD []) calls).length : Int)) := by
  induction calls with
  | nil => intro tr h; exact absurd rfl h
  | cons t ts ih =>
    intro tr _
    cases hts : ts with
    | nil =>
      simp [runTrackCommand, TrackCommand, trackList, pruneAfter]
    | cons t' ts' =>
      have hne : ts ≠ [] := by rw [hts]; simp
      rw [← hts]
      simp only [runTrackCommand]
      have hlen : (runTrackCommand (TrackCommand tr hostmask cmdName t).2.2
          hostmask cmdName ts).2.length = ts.length :=
        runTrackCommand_length hostmask cmdName ts _
      have htail : (runTrackCommand (TrackCommand tr hostmask cmdName t).2.2
          hostmask cmdName ts).2 ≠ [] := by
        intro hempty
        rw [hempty] at hlen
        rw [hts] at hlen
        simp at hlen
      rw [getLast?_cons_ne _ _ htail]
      rw [ih _ hne]
      simp [TrackCommand, lookupA_setA_self, trackList]

theorem trackList_keeps (W : Int) (hW : 0 < W) :
    ∀ (calls kept ts0 : List Int),
      kept.Sublist ts0 →
      (∀ u ∈ kept, ∀ t ∈ calls, t - W < u) →
      (∀ a ∈ calls, ∀ b ∈ calls, b - W < a) →
      (kept ++ calls).Sublist (trackList W ts0 calls) := by
  intro calls
  induction calls with
  | nil =>
    intro kept ts0 hsub _ _
    simpa using hsub
  | cons t rest ih =>
    intro kept ts0 hsub hkeep hclose
    have hkeptp : ∀ u ∈ kept, t - W < u := fun u hu => hkeep u hu t (by simp)
    have hpt : t - W < t := by omega
    have hL1 : pruneAfter (t - W) (ts0 ++ [t]) =
        ts0.filter (fun u => decide (t - W < u)) ++ [t] := by
      simp [pruneAfter, List.filter_append, hpt]
    have hkeptfilter : kept.filter (fun u => decide (t - W < u)) = kept :=
      List.filter_eq_self.2 (fun u hu => by simpa using hkeptp u hu)
    have hsub1 : (kept ++ [t]).Sublist (pruneAfter (t - W) (ts0 ++ [t])) := by
      rw [hL1]
      refine List.Sublist.append ?_ (List.Sublist.refl [t])
      rw [← hkeptfilter]
      exact List.Sublist.filter _ hsub
    have hgoal := ih (kept ++ [t]) (pruneAfter (t - W) (ts0 ++ [t])) hsub1
      (by
        intro u hu t' ht'
        rcases List.mem_append.1 hu with hu | hu
        · exact hkeep u hu t' (by simp [ht'])
        · simp only [List.mem_singleton] at hu
          subst hu
          exact hclose u (by simp) t' (by simp [ht']))
      (fun a ha b hb => hclose a (by simp [ha]) b (by simp [hb]))
    simp only [trackList]
    have heq : kept ++ t :: rest = (kept ++ [t]) ++ rest := by simp
    rw [heq]
    exact hgoal

theorem runTrackMessage_spaced (hostmask : String) (W M : Int) (hW : 0 < W)
    (hM : 1 ≤ M) :
    ∀ (calls : List Int) (tr : TrackerState),
      tr.messageWindow = W → tr.maxMessagesPerWindow = M →
      List.Chain' (fun a b => a + W < b) calls →
      (∀ u ∈ (lookupA tr.userMessages hostmask).getD [], ∀ t ∈ calls.head?, u + W ≤ t) →
      ∀ out ∈ (runTrackMessage tr hostmask calls).2, out.1 = false := by
  intro calls
  induction calls with
  | nil =>
    intro tr _ _ _ _ out hout
    simp [runTrackMessage] at hout
  | cons t rest ih =>
    intro tr hWw hMm hchain hpast out hout
    have hfilter : ((lookupA tr.userMessages hostmask).getD []).filter
        (fun u => decide (t - tr.messageWindow < u)) = [] := by
      rw [List.filter_eq_nil_iff]
      intro u hu
      have := hpast u hu t (by simp)
      simp only [decide_eq_true_eq]
      rw [hWw]
      omega
    have hL1 : pruneAfter (t - tr.messageWindow)
        (((lookupA tr.userMessages hostmask).getD []) ++ [t]) = [t] := by
      have hpt : t - tr.messageWindow < t := by rw [hWw]; omega
      simp [pruneAfter, List.filter_append, hfilter, hpt]
    simp only [runTrackMessage] at hout
    rcases List.mem_cons.1 hout with rfl | hout2
    · show (TrackMessage tr hostmask t).1 = false
      simp only [TrackMessage, hL1, hMm]
      simp only [List.length_singleton, Nat.cast_one, decide_eq_false_iff_not, not_lt]
      exact hM
    · refine ih _ ?_ ?_ ?_ ?_ out hout2
      · simp [TrackMessage, hWw]
      · simp [TrackMessage, hMm]
      · exact hchain.tail
      · intro u hu t' ht'
        simp only [TrackMessage, lookupA_setA_self, Option.getD_some, hL1,
          List.mem_singleton] at hu
        subst hu
        have hrel := (List.chain'_cons'.1 hchain).1 t' ht'
        omega

theorem runTrackCommand_spaced (hostmask cmdName : String) (W M : Int)
    (hW : 0 < W) (hM : 1 ≤ M) :
    ∀ (calls : List Int) (tr : TrackerState),
      tr.commandWindow = W → tr.maxCommandsPerWindow = M →
      List.Chain' (fun a b => a + W < b) calls →
      (∀ u ∈ (lookupA ((lookupA tr.userCommandUsage hostmask).getD []) cmdName).getD [],
        ∀ t ∈ calls.head?, u + W ≤ t) →
      ∀ out ∈ (runTrackCommand tr hostmask cmdName calls).2, out.1 = false := by
  intro calls
  induction calls with
  | nil =>
    intro tr _ _ _ _ out hout
    simp [runTrackCommand] at hout
  | cons t rest ih =>
    intro tr hWw hMm hchain hpast out hout
    have hfilter : ((lookupA ((lookupA tr.userCommandUsage hostmask).getD [])
        cmdName).getD []).filter (fun u => decide (t - tr.commandWindow < u)) = [] := by
      rw [List.filter_eq_nil_iff]
      intro u hu
      have := hpast u hu t (by simp)
      simp only [decide_eq_true_eq]
      rw [hWw]
      omega
    have hL1 : pruneAfter (t - tr.commandWindow)
        (((lookupA ((lookupA tr.userCommandUsage hostmask).getD []) cmdName).getD [])
          ++ [t]) = [t] := by
      have hpt : t - tr.commandWindow < t := by rw [hWw]; omega
      simp [pruneAfter, List.filter_append, hfilter, hpt]
    simp only [runTrackCommand] at hout
    rcases List.mem_cons.1 hout with rfl | hout2
    · show (TrackCommand tr hostmask cmdName t).1 = false
      simp only [TrackCommand, hL1, hMm]
      simp only [List.length_singleton, Nat.cast_one, decide_eq_false_iff_not, not_lt]
      exact hM
    · refine ih _ ?_ ?_ ?_ ?_ out hout2
      · simp [TrackCommand, hWw]
      · simp [TrackCommand, hMm]
      · exact hchain.tail
      · intro u hu t' ht'
        simp only [TrackCommand, lookupA_setA_self, Option.getD_some, hL1,
          List.mem_singleton] at hu
        subst hu
        have hrel := (List.chain'_cons'.1 hchain).1 t' ht'
        omega

/-! ### Claim C8 -/

/-- C8: for a window of W seconds and a maximum of M events, M+1 tracked
events of one identity all within W seconds (under both TrackMessage and
TrackCommand for one command name) make the (M+1)th call report exceeded
— from any starting tracker state; and events each spaced more than W
seconds from the previous (for a fresh identity/command) never report
exceeded. -/
theorem C8_sliding_window :
    (∀ (tr : TrackerState) (hostmask : String) (M : Nat) (calls : List Int),
      0 < tr.messageWindow →
      tr.maxMessagesPerWindow = (M : Int) →
      calls.length = M + 1 →
      (∀ a ∈ calls, ∀ b ∈ calls, b - a < tr.messageWindow) →
      ((runTrackMessage tr hostmask calls).2.getLast?).map Prod.fst = some true)
    ∧ (∀ (tr : TrackerState) (hostmask : String) (M : Int) (calls : List Int),
      0 < tr.messageWindow → 1 ≤ M →
      tr.maxMessagesPerWindow = M →
      (lookupA tr.userMessages hostmask).getD [] = [] →
      List.Chain' (fun a b => a + tr.messageWindow < b) calls →
      ∀ out ∈ (runTrackMessage tr hostmask calls).2, out.1 = false)
    ∧ (∀ (tr : TrackerState) (hostmask cmdName : String) (M : Nat) (calls : List Int),
      0 < tr.commandWindow →
      tr.maxCommandsPerWindow = (M : Int) →
      calls.length = M + 1 →
      (∀ a ∈ calls, ∀ b ∈ calls, b - a < tr.commandWindow) →
      ((runTrackCommand tr hostmask cmdName calls).2.getLast?).map Prod.fst = some true)
    ∧ (∀ (tr : TrackerState) (hostmask cmdName : String) (M : Int) (calls : List Int),
      0 < tr.commandWindow → 1 ≤ M →
      tr.maxCommandsPerWindow = M →
      (lookupA ((lookupA tr.userCommandUsage hostmask).getD []) cmdName).getD [] = [] →
      List.Chain' (fun a b => a + tr.commandWindow < b) calls →
      ∀ out ∈ (runTrackCommand tr hostmask cmdName calls).2, out.1 = false) := by
  refine ⟨?_, ?_, ?_, ?_⟩
  · intro tr hostmask M calls hW hMax hLen hclose
    have hne : calls ≠ [] := by
      intro h
      rw [h] at hLen
      simp at hLen
    rw [runTrackMessage_last hostmask calls tr hne]
    have hsub := trackList_keeps tr.messageWindow hW calls []
      ((lookupA tr.userMessages hostmask).getD []) (List.nil_sublist _)
      (by simp)
      (fun a ha b hb => by have := hclose a ha b hb; omega)
    have hlen2 := hsub.length_le
    simp only [List.nil_append] at hlen2
    rw [hLen] at hlen2
    have hlt : tr.maxMessagesPerWindow < ((trackList tr.messageWindow
        ((lookupA tr.userMessages hostmask).getD []) calls).length : Int) := by
      rw [hMax]
      have : (M : Int) + 1 ≤ ((trackList tr.messageWindow
          ((lookupA tr.userMessages hostmask).getD []) calls).length : Int) := by
        exact_mod_cast hlen2
      omega
    simp [hlt]
  · intro tr hostmask M calls hW hM hMax hfresh hchain
    exact runTrackMessage_spaced hostmask tr.messageWindow M hW hM calls tr rfl
      hMax hchain (by rw [hfresh]; intro u hu; simp at hu)
  · intro tr hostmask cmdName M calls hW hMax hLen hclose
    have hne : calls ≠ [] := by
      intro h
      rw [h] at hLen
      simp at hLen
    rw [runTrackCommand_last hostmask cmdName calls tr hne]
    have hsub := trackList_keeps tr.commandWindow hW calls []
      ((lookupA ((lookupA tr.userCommandUsage hostmask).getD []) cmdName).getD [])
      (List.nil_sublist _)
      (by simp)
      (fun a ha b hb => by have := hclose a ha b hb; omega)
    have hlen2 := hsub.length_le
    simp only [List.nil_append] at hlen2
    rw [hLen] at hlen2
    have hlt : tr.maxCommandsPerWindow < ((trackList tr.commandWindow
        ((lookupA ((lookupA tr.userCommandUsage hostmask).getD []) cmdName).getD [])
        calls).length : Int) := by
      rw [hMax]
      have : (M : Int) + 1 ≤ ((trackList tr.commandWindow
          ((lookupA ((lookupA tr.userCommandUsage hostmask).getD []) cmdName).getD [])
          calls).length : Int) := by
        exact_mod_cast hlen2
      omega
    simp [hlt]
  · intro tr hostmask cmdName M calls hW hM hMax hfresh hchain
    exact runTrackCommand_spaced hostmask cmdName tr.commandWindow M hW hM calls tr
      rfl hMax hchain (by rw [hfresh]; intro u hu; simp at hu)

/-- C8 witness: with the default tracker (message window 10, max 5; command
window 30, max 10), six messages at seconds 1..6 make the sixth call report
exceeded; five messages spaced 11 seconds apart never do; eleven `ping`
commands in seconds 1..11 make the eleventh report exceeded. -/
theorem C8_witness :
    ((runTrackMessage NewMessageTracker "w!u@h" [1, 2, 3, 4, 5, 6]).2.getLast?).map
      Prod.fst = some true
    ∧ ((runTrackMessage NewMessageTracker "w!u@h"
        [0, 11, 22, 33, 44]).2.getD 0 (true, 0)).1 = false
    ∧ ((runTrackCommand NewMessageTracker "w!u@h" "ping"
        [1, 2, 3, 4, 5, 6, 7, 8, 9, 10, 11]).2.getLast?).map Prod.fst = some true := by
  refine ⟨?_, ?_, ?_⟩
  · exact C8_sliding_window.1 NewMessageTracker "w!u@h" 5 [1, 2, 3, 4, 5, 6]
      (by decide) (by decide) (by decide) (by decide)
  · exact C8_sliding_window.2.1 NewMessageTracker "w!u@h" 5 [0, 11, 22, 33, 44]
      (by decide) (by decide) (by decide) (by decide)
      (by
        simp only [List.chain'_cons, List.chain'_singleton, NewMessageTracker, and_true]
        omega)
      ((runTrackMessage NewMessageTracker "w!u@h" [0, 11, 22, 33, 44]).2.getD 0 (true, 0))
      (by decide)
  · exact C8_sliding_window.2.2.1 NewMessageTracker "w!u@h" "ping"
      10 [1, 2, 3, 4, 5, 6, 7, 8, 9, 10, 11]
      (by decide) (by decide) (by decide) (by decide)

end MBot
